import Mathlib

/-!
Shallow embedding of the request-processing middleware pipeline of
`azlo-goboiler` (`internal/middleware/middleware.go`), together with proofs
about its rate limiters, JWT authenticator, correlation-id propagation,
timeout guard and JSON error rendering.

Conventions of the embedding:
* machine integers become `Int`/`Nat` (no overflow is reachable here);
* Go time values become unix seconds (`Int`) for the Redis limiter and
  rational seconds (`ℚ`) for the token-bucket limiter and the timeout guard;
* the Redis sorted set behind one `rate_limit:<ip>` key becomes a list of
  `(member, score)` pairs with at most one pair per member, exactly the
  map-like semantics Redis gives a sorted set;
* fallible external effects (the pipelined Redis `Exec`) are driven by an
  explicit `redisOK` flag;
* `uuid.New().String()` becomes an explicit `freshID` argument.
-/

namespace Goboiler

/-! ## JSON error rendering (`writeJSONError`, `Recovery`) -/

/-- Body template of `writeJSONError` (middleware.go): the message and the
request id are inserted verbatim by `fmt.Sprintf`, with no JSON escaping. -/
def writeJSONErrorBody (message requestID : String) : String :=
  "\x7b\"success\":false,\"error\":\"" ++ message ++
    "\",\"request_id\":\"" ++ requestID ++ "\"\x7d"

/-- The 500 body written inline by the `Recovery` middleware:
`` `{"success":false,"error":"Internal server error","request_id":"` +
requestID + `"}` ``. -/
def recoveryBody (requestID : String) : String :=
  "\x7b\"success\":false,\"error\":\"Internal server error\",\"request_id\":\"" ++
    requestID ++ "\"\x7d"

/-- A minimal HTTP response: status code and body. -/
structure Response where
  status : Nat
  body : String
  deriving DecidableEq, Repr

/-- Scans a JSON-string payload: `true` iff every double quote in the
character list is escaped (immediately preceded by a backslash).  Any body of
the shape `{"success":false,"error":"E","request_id":"R"}` in which `E` and
`R` are syntactically valid JSON string contents satisfies this predicate on
`E` and `R`. -/
def noRawQuote : List Char → Bool
  | [] => true
  | a :: rest =>
    if a = '\\' then
      match rest with
      | [] => true
      | _ :: rest2 => noRawQuote rest2
    else if a = '"' then false
    else noRawQuote rest

/-- Occurrences of the character `c` in a character list. -/
def countChar (c : Char) : List Char → Nat
  | [] => 0
  | a :: rest => (if a = c then 1 else 0) + countChar c rest

/-- `body` can be read as the fixed error envelope
`{"success":false,"error":"E","request_id":"R"}` with `E` and `R` free of
unescaped double quotes — a necessary condition for the body to be a JSON
object of the envelope shape. -/
def IsEnvelopeShaped (body : String) : Prop :=
  ∃ e r : String, noRawQuote e.data = true ∧ noRawQuote r.data = true ∧
    body = writeJSONErrorBody e r

/-! ## JWT middleware (`Middleware.JWT`, golang-jwt/jwt v5)

The token cookie is modelled by what `jwt.ParseWithClaims` can observe of it:
whether the compact serialization parses (`wellFormed`), whether the header
algorithm is in the HMAC family (`algHMAC`, checked by the keyfunc in
middleware.go), the secret under which the HMAC signature verifies
(`signedWith`; HMAC verification succeeds exactly against the signing key),
and the registered claims used by the middleware (`sub`, `exp`). -/

structure RawToken where
  wellFormed : Bool
  algHMAC : Bool
  signedWith : String
  sub : String
  exp : Int
  deriving DecidableEq, Repr

/-- Error classes of `jwt.ParseWithClaims` v5 reachable here, in the order
the v5 parser raises them: `ParseUnverified` failure (`ErrTokenMalformed`),
keyfunc failure for a non-HMAC algorithm (`ErrTokenUnverifiable`), signature
verification failure (`ErrTokenSignatureInvalid`), and claims validation
failure with an expired `exp` (`ErrTokenInvalidClaims` joining
`ErrTokenExpired`). -/
inductive JWTError
  | malformed
  | keyfuncFailed
  | signatureInvalid
  | expired
  deriving DecidableEq, Repr

/-- `jwt.ParseWithClaims` (v5) under the keyfunc of `Middleware.JWT`: parse,
check the signing method is HMAC, verify the signature against
`App_Secret`, then validate claims (expiry); first failure wins.  In v5 the
signature is verified before the claims are validated. -/
def parseWithClaims (secret : String) (now : Int) (tok : RawToken) :
    Except JWTError String :=
  if ¬ tok.wellFormed then .error .malformed
  else if ¬ tok.algHMAC then .error .keyfuncFailed
  else if tok.signedWith ≠ secret then .error .signatureInvalid
  else if tok.exp < now then .error .expired
  else .ok tok.sub

/-- Outcome of `Middleware.JWT` for one request: either a rejection response
or the call to `next` with the verified subject stored in the request
context (`config.UserIDKey`). -/
def jwtMiddleware (secret : String) (now : Int) (requestID : String)
    (cookie : Option RawToken) (next : String → Response) : Response :=
  match cookie with
  | none => ⟨401, writeJSONErrorBody "Auth cookie required" requestID⟩
  | some tok =>
    match parseWithClaims secret now tok with
    | .error e =>
      if e = .expired then ⟨401, writeJSONErrorBody "Token has expired" requestID⟩
      else ⟨401, writeJSONErrorBody "Invalid token" requestID⟩
    | .ok sub => next sub

/-! ## Redis sliding-window limiter (`RedisRateLimiter.Allow`)

The per-client sorted set is a list of `(member, score)` pairs.  The three
sorted-set commands issued by the pipeline are embedded with Redis's
semantics: `ZREMRANGEBYSCORE key 0 windowStart` removes every element whose
score lies in the closed interval `[0, windowStart]`; `ZCARD` is the number
of elements; `ZADD` replaces the score of an existing member or inserts a
new element. -/

def zRemRangeByScore (lo hi : Int) (l : List (Int × Int)) : List (Int × Int) :=
  l.filter fun e => ¬ (lo ≤ e.2 ∧ e.2 ≤ hi)

def zCard (l : List (Int × Int)) : Nat := l.length

def zAdd (member score : Int) (l : List (Int × Int)) : List (Int × Int) :=
  if l.any fun e => e.1 = member then
    l.map fun e => if e.1 = member then (member, score) else e
  else (member, score) :: l

/-- State held at one `rate_limit:<ip>` key: the sorted set plus the time to
live installed by the last `EXPIRE`. -/
structure RedisKeyState where
  entries : List (Int × Int)
  ttlSeconds : Int
  deriving DecidableEq, Repr

/-- What one call of `RedisRateLimiter.Allow` produces: the admission
decision, the new state of the key, and whether the fail-open warning was
logged. -/
structure AllowResult where
  allowed : Bool
  state : RedisKeyState
  warned : Bool
  deriving DecidableEq, Repr

/-- `RedisRateLimiter.Allow` at unix-second `now`: if the pipelined `Exec`
fails (`redisOK = false`) the request is allowed and a warning logged (fail
open).  Otherwise the pipeline removes scores in `[0, now-60]`, reads the
cardinality (the pre-insertion count), `ZADD`s an element whose member AND
score are both `now`, sets a 2-minute expiry, and the caller admits iff
`count <= rate`. -/
def redisAllow (rate : Int) (redisOK : Bool) (now : Int)
    (s : RedisKeyState) : AllowResult :=
  if ¬ redisOK then ⟨true, s, true⟩
  else
    let windowStart := now - 60
    let afterRemove := zRemRangeByScore 0 windowStart s.entries
    let count := zCard afterRemove
    let afterAdd := zAdd now now afterRemove
    ⟨decide ((count : Int) ≤ rate), ⟨afterAdd, 120⟩, false⟩

/-- The admission operation as claim C2 words it (`Modelled from the spec`
for comparison only): removal of the entries with scores strictly older
than `now - 60`, with everything else as in `redisAllow`. -/
def redisAllowSpecWorded (rate : Int) (now : Int) (s : RedisKeyState) :
    AllowResult :=
  let afterRemove := s.entries.filter fun e => ¬ (e.2 < now - 60)
  let count := zCard afterRemove
  let afterAdd := zAdd now now afterRemove
  ⟨decide ((count : Int) ≤ rate), ⟨afterAdd, 120⟩, false⟩

/-- Process a sequence of requests from one client through
`RedisRateLimiter.Allow` (healthy Redis), returning the per-request
decisions and the final key state. -/
def redisRun (rate : Int) (s : RedisKeyState) :
    List Int → List Bool × RedisKeyState
  | [] => ([], s)
  | t :: ts =>
    let res := redisAllow rate true t s
    let rest := redisRun rate res.state ts
    (res.allowed :: rest.1, rest.2)

/-- The count a request arriving at unix-second `t` observes: the
cardinality read by `ZCARD` after the pipeline's `ZREMRANGEBYSCORE` and
before its `ZADD`. -/
def observedCount (t : Int) (s : RedisKeyState) : Nat :=
  zCard (zRemRangeByScore 0 (t - 60) s.entries)

/-- `Middleware.RateLimit` on the Redis path: admit or answer 429. -/
def rateLimitMiddleware (rate : Int) (redisOK : Bool) (now : Int)
    (requestID : String) (s : RedisKeyState) (next : Response) :
    Response × RedisKeyState :=
  let res := redisAllow rate redisOK now s
  if res.allowed then (next, res.state)
  else (⟨429, writeJSONErrorBody "Rate limit exceeded" requestID⟩, res.state)

/-! ## In-memory token-bucket limiter (`MemoryRateLimiter`, x/time/rate)

`golang.org/x/time/rate` bucket state: current tokens and the time of the
last state update, both rational.  `Limiter.Allow` advances the bucket
(elapsed time times the refill rate, capped at the burst), admits iff a full
token is available (and `1 <= burst`), and on rejection leaves the state
untouched. -/

structure Bucket where
  tokens : ℚ
  last : ℚ
  deriving DecidableEq, Repr

/-- `rate.Limiter.Allow` with refill rate `R` tokens/sec and burst `B`:
advance the bucket by the elapsed time (never negative, capped at the
burst), admit iff one token is available (`n = 1 <= burst` and no wait
needed); on admission spend the token and record the update time, on
rejection leave the state untouched. -/
def limiterAllow (R B : ℚ) (t : ℚ) (b : Bucket) : Bool × Bucket :=
  if 1 ≤ B ∧ 1 ≤ min B (b.tokens + R * max 0 (t - b.last)) then
    (true, ⟨min B (b.tokens + R * max 0 (t - b.last)) - 1, t⟩)
  else (false, b)

/-- The bucket `MemoryRateLimiter.getLimiter` creates on first sight of an
IP at time `t`: `rate.NewLimiter` starts from zero tokens at the zero time,
so its first advance saturates at the burst; equivalently, a full bucket
last updated at `t`. -/
def newVisitorBucket (B : ℚ) (t : ℚ) : Bucket := ⟨B, t⟩

/-- Run one client's requests (times in seconds, in arrival order) through
`limiterAllow`. -/
def limiterRun (R B : ℚ) (b : Bucket) : List ℚ → List Bool × Bucket
  | [] => ([], b)
  | t :: ts =>
    let step := limiterAllow R B t b
    let rest := limiterRun R B step.2 ts
    (step.1 :: rest.1, rest.2)

/-! ## Timeout middleware (`Middleware.Timeout`)

The guard runs `next` in a goroutine and selects between the goroutine's
completion signal and the context deadline.  The embedding is timed:
`finish` is the instant (seconds from request start) at which the downstream
handler completes and writes its response, `timeout` is the deadline.  The
earlier event wins the select; the guard never stops the goroutine, so on a
deadline overrun the downstream write still lands on the shared writer after
the guard's 408.  (The nondeterministic tie `finish = timeout` is resolved
toward the completion branch; the theorems only use strict orders.) -/

structure TimeoutOutcome where
  writes : List Response
  guardReturnTime : ℚ
  deriving DecidableEq, Repr

def timeoutMiddleware (timeout : ℚ) (requestID : String) (finish : ℚ)
    (handlerResponse : Response) : TimeoutOutcome :=
  if finish ≤ timeout then ⟨[handlerResponse], finish⟩
  else
    ⟨[⟨408, writeJSONErrorBody "Request timeout" requestID⟩, handlerResponse],
      timeout⟩

/-! ## Request-ID and Logging middleware (`Middleware.RequestID`,
`Middleware.Logging`)

A request carries the `X-Request-ID` header value (empty string when
absent, as `Header.Get` reports it) and the `request_id` context value; the
world visible to a handler is the response's `X-Request-ID` header, the
response status, and the emitted log records. -/

structure Req where
  headerXRequestID : String
  ctxRequestID : Option String
  deriving DecidableEq, Repr

structure LogRecord where
  requestID : String
  status : Nat
  deriving DecidableEq, Repr

structure World where
  respHeaderXRequestID : String
  status : Nat
  logs : List LogRecord
  deriving DecidableEq, Repr

/-- A handler (the rest of the pipeline) under this world model. -/
def MWHandler := Req → World → World

/-- `getRequestID`: the `request_id` context value, defaulting to
`"unknown"`. -/
def getRequestID (ctx : Option String) : String := ctx.getD "unknown"

/-- `Middleware.RequestID` with the `uuid.New().String()` draw passed in as
`freshID`: keep a non-empty client header value, otherwise use the fresh id;
store it in the context, mirror it onto the response header, call `next`. -/
def requestIDMiddleware (freshID : String) (next : MWHandler) : MWHandler :=
  fun r w =>
    let requestID :=
      if r.headerXRequestID = "" then freshID else r.headerXRequestID
    next { r with ctxRequestID := some requestID }
      { w with respHeaderXRequestID := requestID }

/-- `Middleware.Logging`: read the correlation id from the context, run
`next` through the wrapping response writer, then emit one record carrying
that id and the observed final status. -/
def loggingMiddleware (next : MWHandler) : MWHandler :=
  fun r w =>
    let requestID := getRequestID r.ctxRequestID
    let w1 := next r w
    { w1 with logs := w1.logs ++ [⟨requestID, w1.status⟩] }

/-! ## Helper lemmas -/

theorem countChar_append (c : Char) (l1 l2 : List Char) :
    countChar c (l1 ++ l2) = countChar c l1 + countChar c l2 := by
  induction l1 with
  | nil => simp [countChar]
  | cons a rest ih => simp [countChar, ih]; omega

theorem mem_zAdd (m s : Int) (l : List (Int × Int)) (e : Int × Int) :
    e ∈ zAdd m s l ↔ e = (m, s) ∨ (e ∈ l ∧ e.1 ≠ m) := by
  unfold zAdd
  by_cases hp : (l.any fun x => x.1 = m) = true
  · rw [if_pos hp, List.mem_map]
    constructor
    · rintro ⟨x, hx, hxe⟩
      by_cases hxm : x.1 = m
      · simp only [hxm, if_true] at hxe; exact Or.inl hxe.symm
      · simp only [hxm, if_false] at hxe; exact Or.inr ⟨hxe ▸ hx, hxe ▸ hxm⟩
    · rintro (rfl | ⟨he, hne⟩)
      · rcases List.any_eq_true.mp hp with ⟨x, hx, hxm⟩
        exact ⟨x, hx, by simp [of_decide_eq_true hxm]⟩
      · exact ⟨e, he, by simp [hne]⟩
  · rw [if_neg hp]
    rw [List.mem_cons]
    constructor
    · rintro (rfl | he)
      · exact Or.inl rfl
      · refine Or.inr ⟨he, fun hm => ?_⟩
        exact hp (List.any_eq_true.mpr ⟨e, he, decide_eq_true hm⟩)
    · rintro (rfl | ⟨he, _⟩)
      · exact Or.inl rfl
      · exact Or.inr he

theorem mem_zRemRangeByScore (lo hi : Int) (l : List (Int × Int)) (e : Int × Int) :
    e ∈ zRemRangeByScore lo hi l ↔ e ∈ l ∧ ¬ (lo ≤ e.2 ∧ e.2 ≤ hi) := by
  unfold zRemRangeByScore
  rw [List.mem_filter]
  simp only [decide_eq_true_eq]

theorem writeJSONErrorBody_ne (m1 m2 r : String) (h : m1.length ≠ m2.length) :
    writeJSONErrorBody m1 r ≠ writeJSONErrorBody m2 r := by
  intro heq
  have hl := congrArg String.length heq
  simp only [writeJSONErrorBody, String.length_append] at hl
  omega

/-! ## Claim C1 -/

/-- C1: with window = 60 s and limit = 100, the code does NOT reject the
101st same-instant request.  All 101 requests arriving in the same unix
second insert the identical member `now`, so the per-client sorted set
holds a single element, every request observes a pre-insertion count of at
most 1, and all 101 are admitted; a request after the window elapses is
admitted too.  This evaluates the embedded `RedisRateLimiter.Allow` at the
claim's failing input. -/
theorem redis_limiter_admits_101st_same_second :
    (redisRun 100 ⟨[], 0⟩ (List.replicate 101 1000)).1 = List.replicate 101 true
    ∧ (redisRun 100 ⟨[], 0⟩ (List.replicate 101 1000)).2.entries = [(1000, 1000)]
    ∧ (redisAllow 100 true 1061
        (redisRun 100 ⟨[], 0⟩ (List.replicate 101 1000)).2).allowed = true := by
  decide

/-! ## Claim C2 -/

/-- C2 counterexample: the pipeline's `ZREMRANGEBYSCORE key 0 (t-60)`
removes the boundary entry scored exactly `t - 60`, which is not "older
than t minus 60"; the claim's strict-removal description
(`redisAllowSpecWorded`) disagrees with the code on the admission decision
at a concrete input (limit 1, entries scored 0 and 30, request at t = 60). -/
theorem redis_removal_boundary_counterexample :
    (redisAllow 1 true 60 ⟨[(0, 0), (30, 30)], 0⟩).allowed = true
    ∧ (redisAllowSpecWorded 1 60 ⟨[(0, 0), (30, 30)], 0⟩).allowed = false
    ∧ (0, 0) ∉ (redisAllow 1 true 60 ⟨[(0, 0), (30, 30)], 0⟩).state.entries
    ∧ (0, 0) ∈ (redisAllowSpecWorded 1 60 ⟨[(0, 0), (30, 30)], 0⟩).state.entries := by
  decide

/-- C2 amended: on a healthy store the pipelined operation removes exactly
the entries with scores in `[0, t-60]` (older than OR equal to `t - 60`),
counts the remainder, inserts the entry `(t, t)`, and refreshes the
2-minute idle expiry; the request is admitted exactly when that
pre-insertion count is at most the configured limit. -/
theorem redis_pipeline_characterization (rate now : Int) (s : RedisKeyState) :
    ((redisAllow rate true now s).allowed = true
      ↔ (zCard (zRemRangeByScore 0 (now - 60) s.entries) : Int) ≤ rate)
    ∧ (∀ e, e ∈ zRemRangeByScore 0 (now - 60) s.entries
        ↔ e ∈ s.entries ∧ ¬ (0 ≤ e.2 ∧ e.2 ≤ now - 60))
    ∧ (∀ e, e ∈ (redisAllow rate true now s).state.entries
        ↔ e = (now, now)
          ∨ (e ∈ zRemRangeByScore 0 (now - 60) s.entries ∧ e.1 ≠ now))
    ∧ (redisAllow rate true now s).state.ttlSeconds = 120
    ∧ (redisAllow rate true now s).warned = false := by
  refine ⟨?_, fun e => mem_zRemRangeByScore 0 (now - 60) s.entries e, ?_, ?_, ?_⟩
  · simp [redisAllow]
  · intro e
    simpa [redisAllow] using
      mem_zAdd now now (zRemRangeByScore 0 (now - 60) s.entries) e
  · simp [redisAllow]
  · simp [redisAllow]

/-! ## Claim C3 -/

/-- C3 counterexample.  (1) A token that is both expired and signed with a
different secret: the claim's order (expiry before signature) mandates the
'expired' reason, but jwt v5 verifies the signature before validating
claims, so the code answers 'Invalid token'.  (2) An unparseable token gets
no reason of its own: its rejection is byte-identical to that of a
bad-signature token ('Invalid token'), so 'malformed' is not a distinct
reason. -/
theorem jwt_claimed_order_counterexample :
    (jwtMiddleware "s3cr3t" 100 "rid" (some ⟨true, true, "other", "alice", 50⟩)
        (fun sub => ⟨200, sub⟩)
      = ⟨401, writeJSONErrorBody "Invalid token" "rid"⟩)
    ∧ (jwtMiddleware "s3cr3t" 100 "rid" (some ⟨true, true, "other", "alice", 50⟩)
        (fun sub => ⟨200, sub⟩)
      ≠ ⟨401, writeJSONErrorBody "Token has expired" "rid"⟩)
    ∧ (jwtMiddleware "s3cr3t" 100 "rid" (some ⟨false, true, "s3cr3t", "alice", 200⟩)
        (fun sub => ⟨200, sub⟩)
      = jwtMiddleware "s3cr3t" 100 "rid" (some ⟨true, true, "other", "alice", 200⟩)
        (fun sub => ⟨200, sub⟩)) := by
  refine ⟨by decide, ?_, by decide⟩
  intro h
  exact writeJSONErrorBody_ne "Invalid token" "Token has expired" "rid"
    (by decide) (by injection (by decide : jwtMiddleware "s3cr3t" 100 "rid"
      (some ⟨true, true, "other", "alice", 50⟩) (fun sub => ⟨200, sub⟩)
      = ⟨401, writeJSONErrorBody "Invalid token" "rid"⟩).symm.trans h)

/-- C3 amended: the authenticator decides terminally in this order, each
failure a 401: no cookie → 'Auth cookie required'; cookie unparseable →
the generic 'Invalid token' (no distinct malformed reason); parseable but
signed outside the HMAC family, or with an invalid signature (e.g. a
different secret) — checked BEFORE expiry — → 'Invalid token'; parseable,
well signed, but expired → 'Token has expired'; otherwise the verified
subject is passed to the next handler through the request context. -/
theorem jwt_decision_order (secret : String) (now : Int) (requestID : String)
    (next : String → Response) :
    (jwtMiddleware secret now requestID none next
      = ⟨401, writeJSONErrorBody "Auth cookie required" requestID⟩)
    ∧ (∀ tok : RawToken, tok.wellFormed = false →
        jwtMiddleware secret now requestID (some tok) next
          = ⟨401, writeJSONErrorBody "Invalid token" requestID⟩)
    ∧ (∀ tok : RawToken, tok.wellFormed = true → tok.algHMAC = false →
        jwtMiddleware secret now requestID (some tok) next
          = ⟨401, writeJSONErrorBody "Invalid token" requestID⟩)
    ∧ (∀ tok : RawToken, tok.wellFormed = true → tok.algHMAC = true →
        tok.signedWith ≠ secret →
        jwtMiddleware secret now requestID (some tok) next
          = ⟨401, writeJSONErrorBody "Invalid token" requestID⟩)
    ∧ (∀ tok : RawToken, tok.wellFormed = true → tok.algHMAC = true →
        tok.signedWith = secret → tok.exp < now →
        jwtMiddleware secret now requestID (some tok) next
          = ⟨401, writeJSONErrorBody "Token has expired" requestID⟩)
    ∧ (∀ tok : RawToken, tok.wellFormed = true → tok.algHMAC = true →
        tok.signedWith = secret → ¬ tok.exp < now →
        jwtMiddleware secret now requestID (some tok) next = next tok.sub) := by
  refine ⟨rfl, ?_, ?_, ?_, ?_, ?_⟩
  · intro tok h1
    simp [jwtMiddleware, parseWithClaims, h1]
  · intro tok h1 h2
    simp [jwtMiddleware, parseWithClaims, h1, h2]
  · intro tok h1 h2 h3
    simp [jwtMiddleware, parseWithClaims, h1, h2, h3]
  · intro tok h1 h2 h3 h4
    simp [jwtMiddleware, parseWithClaims, h1, h2, h3, h4]
  · intro tok h1 h2 h3 h4
    simp [jwtMiddleware, parseWithClaims, h1, h2, h3, h4]

/-- Witness for `jwt_decision_order`: concrete expired and concrete valid
tokens, hypotheses discharged. -/
theorem jwt_decision_order_witness :
    (jwtMiddleware "s" 100 "rid" (some ⟨true, true, "s", "alice", 50⟩)
        (fun sub => ⟨200, sub⟩)
      = ⟨401, writeJSONErrorBody "Token has expired" "rid"⟩)
    ∧ (jwtMiddleware "s" 100 "rid" (some ⟨true, true, "s", "alice", 200⟩)
        (fun sub => ⟨200, sub⟩) = ⟨200, "alice"⟩) := by
  constructor
  · exact (jwt_decision_order "s" 100 "rid" (fun sub => ⟨200, sub⟩)).2.2.2.2.1
      ⟨true, true, "s", "alice", 50⟩ rfl rfl rfl (by decide)
  · exact (jwt_decision_order "s" 100 "rid" (fun sub => ⟨200, sub⟩)).2.2.2.2.2
      ⟨true, true, "s", "alice", 200⟩ rfl rfl rfl (by decide)

/-! ## Claim C5 -/

/-- C5: a well-formed HMAC token whose signature verifies against the shared
secret but whose `exp` lies in the past is always rejected with the
'expired' reason, never with the generic 'Invalid token' reason. -/
theorem jwt_expired_beats_valid_signature (secret : String) (now : Int)
    (requestID : String) (tok : RawToken) (next : String → Response)
    (hw : tok.wellFormed = true) (ha : tok.algHMAC = true)
    (hs : tok.signedWith = secret) (he : tok.exp < now) :
    jwtMiddleware secret now requestID (some tok) next
      = ⟨401, writeJSONErrorBody "Token has expired" requestID⟩
    ∧ jwtMiddleware secret now requestID (some tok) next
      ≠ ⟨401, writeJSONErrorBody "Invalid token" requestID⟩ := by
  have h1 : jwtMiddleware secret now requestID (some tok) next
      = ⟨401, writeJSONErrorBody "Token has expired" requestID⟩ := by
    simp [jwtMiddleware, parseWithClaims, hw, ha, hs, he]
  refine ⟨h1, ?_⟩
  rw [h1]
  intro hcon
  exact writeJSONErrorBody_ne "Token has expired" "Invalid token" requestID
    (by decide) (by injection hcon)

/-- Witness for `jwt_expired_beats_valid_signature` at a concrete expired,
correctly signed token. -/
theorem jwt_expired_beats_valid_signature_witness :
    jwtMiddleware "k" 100 "rid" (some ⟨true, true, "k", "bob", 99⟩)
        (fun sub => ⟨200, sub⟩)
      = ⟨401, writeJSONErrorBody "Token has expired" "rid"⟩
    ∧ jwtMiddleware "k" 100 "rid" (some ⟨true, true, "k", "bob", 99⟩)
        (fun sub => ⟨200, sub⟩)
      ≠ ⟨401, writeJSONErrorBody "Invalid token" "rid"⟩ :=
  jwt_expired_beats_valid_signature "k" 100 "rid" ⟨true, true, "k", "bob", 99⟩
    (fun sub => ⟨200, sub⟩) rfl rfl rfl (by decide)

/-! ## Claim C4 -/

/-- C4: when the pipelined store operation fails (`Exec` returns an error,
covering an unreachable store), `RedisRateLimiter.Allow` admits the request
and logs a warning, and `Middleware.RateLimit` forwards the downstream
response unchanged — the store failure produces neither a 429 nor a 500. -/
theorem redis_fail_open (rate now : Int) (s : RedisKeyState)
    (requestID : String) (next : Response) :
    (redisAllow rate false now s).allowed = true
    ∧ (redisAllow rate false now s).warned = true
    ∧ (rateLimitMiddleware rate false now requestID s next).1 = next := by
  refine ⟨rfl, rfl, ?_⟩
  simp [rateLimitMiddleware, redisAllow]

/-! ## Claim C6 -/

/-- C6: a non-empty client `X-Request-ID` header value is used unchanged,
an empty/absent one is replaced by the freshly generated id; the chosen
value is stored in the request context handed to the inner pipeline,
mirrored onto the response header, and is exactly the id carried by the
one record the logging middleware appends. -/
theorem request_id_propagation (headerValue freshID : String) (w : World)
    (next : MWHandler)
    (hheader : ∀ r w1, (next r w1).respHeaderXRequestID = w1.respHeaderXRequestID)
    (hlogs : ∀ r w1, (next r w1).logs = w1.logs) :
    (headerValue ≠ "" →
      (if headerValue = "" then freshID else headerValue) = headerValue)
    ∧ (headerValue = "" →
      (if headerValue = "" then freshID else headerValue) = freshID)
    ∧ (∀ next2 : MWHandler,
        requestIDMiddleware freshID next2 ⟨headerValue, none⟩ w
        = next2
            ⟨headerValue, some (if headerValue = "" then freshID else headerValue)⟩
            { w with respHeaderXRequestID :=
                if headerValue = "" then freshID else headerValue })
    ∧ (requestIDMiddleware freshID (loggingMiddleware next)
        ⟨headerValue, none⟩ w).respHeaderXRequestID
        = (if headerValue = "" then freshID else headerValue)
    ∧ (requestIDMiddleware freshID (loggingMiddleware next)
        ⟨headerValue, none⟩ w).logs
        = w.logs ++ [⟨(if headerValue = "" then freshID else headerValue),
            (requestIDMiddleware freshID (loggingMiddleware next)
              ⟨headerValue, none⟩ w).status⟩] := by
  refine ⟨fun h => if_neg h, fun h => if_pos h, fun next2 => rfl, ?_, ?_⟩
  · simp [requestIDMiddleware, loggingMiddleware, getRequestID, hheader]
  · simp [requestIDMiddleware, loggingMiddleware, getRequestID, hlogs]

/-- Witness for `request_id_propagation`: the identity handler, once with a
client-supplied header and once without. -/
theorem request_id_propagation_witness :
    ((("abc" : String) ≠ "" →
      (if ("abc" : String) = "" then "f" else "abc") = "abc")
    ∧ ((("abc" : String) = "") →
      (if ("abc" : String) = "" then "f" else "abc") = "f")
    ∧ (∀ next2 : MWHandler,
        requestIDMiddleware "f" next2 ⟨"abc", none⟩ ⟨"", 200, []⟩
        = next2 ⟨"abc", some (if ("abc" : String) = "" then "f" else "abc")⟩
            { World.mk "" 200 [] with respHeaderXRequestID :=
                if ("abc" : String) = "" then "f" else "abc" })
    ∧ (requestIDMiddleware "f" (loggingMiddleware fun _ w1 => w1)
        ⟨"abc", none⟩ ⟨"", 200, []⟩).respHeaderXRequestID
        = (if ("abc" : String) = "" then "f" else "abc")
    ∧ (requestIDMiddleware "f" (loggingMiddleware fun _ w1 => w1)
        ⟨"abc", none⟩ ⟨"", 200, []⟩).logs
        = [] ++ [⟨(if ("abc" : String) = "" then "f" else "abc"),
            (requestIDMiddleware "f" (loggingMiddleware fun _ w1 => w1)
              ⟨"abc", none⟩ ⟨"", 200, []⟩).status⟩]) := by
  exact request_id_propagation "abc" "f" ⟨"", 200, []⟩ (fun _ w1 => w1)
    (fun _ _ => rfl) (fun _ _ => rfl)

/-! ## Claim C7 -/

theorem limiterAllow_admit_eq (t tokNew : ℚ) (b : Bucket)
    (hlast : b.last ≤ t)
    (h1 : 1 ≤ b.tokens + 5 * (t - b.last))
    (h10 : b.tokens + 5 * (t - b.last) ≤ 10)
    (heq : b.tokens + 5 * (t - b.last) - 1 = tokNew) :
    limiterAllow 5 10 t b = (true, ⟨tokNew, t⟩) := by
  unfold limiterAllow
  have hmax : max 0 (t - b.last) = t - b.last := max_eq_right (by linarith)
  rw [hmax]
  have hmin : min 10 (b.tokens + 5 * (t - b.last))
      = b.tokens + 5 * (t - b.last) := min_eq_right h10
  rw [hmin, if_pos ⟨by norm_num, h1⟩, heq]

theorem limiterAllow_admit_capped (t : ℚ) (b : Bucket)
    (h1 : 1 ≤ min 10 (b.tokens + 5 * max 0 (t - b.last))) :
    limiterAllow 5 10 t b
      = (true, ⟨min 10 (b.tokens + 5 * max 0 (t - b.last)) - 1, t⟩) := by
  unfold limiterAllow
  rw [if_pos ⟨by norm_num, h1⟩]

theorem limiterAllow_reject (t : ℚ) (b : Bucket)
    (h : b.tokens + 5 * max 0 (t - b.last) < 1) :
    limiterAllow 5 10 t b = (false, b) := by
  unfold limiterAllow
  rw [if_neg]
  rintro ⟨-, h2⟩
  have hm := min_le_right (10 : ℚ) (b.tokens + 5 * max 0 (t - b.last))
  linarith

theorem limiterRun_singleton (b : Bucket) (t : ℚ) :
    limiterRun 5 10 b [t]
      = ([(limiterAllow 5 10 t b).1], (limiterAllow 5 10 t b).2) := by
  simp [limiterRun]

theorem limiterRun_append (l1 l2 : List ℚ) : ∀ b : Bucket,
    limiterRun 5 10 b (l1 ++ l2)
    = ((limiterRun 5 10 b l1).1
        ++ (limiterRun 5 10 (limiterRun 5 10 b l1).2 l2).1,
       (limiterRun 5 10 (limiterRun 5 10 b l1).2 l2).2) := by
  induction l1 with
  | nil => intro b; simp [limiterRun]
  | cons t ts ih => intro b; simp [limiterRun, ih]

/-- Exact run of the bucket over a burst in which the cap never binds:
every request is admitted, and the final state is the start state minus one
token per request plus the refill for the elapsed span. -/
theorem limiterRun_exact : ∀ (ts : List ℚ) (b : Bucket),
    List.Chain' (· ≤ ·) (b.last :: ts) →
    (∀ s ∈ ts, b.tokens + 5 * (s - b.last) ≤ 10) →
    ((ts.length : ℚ) ≤ b.tokens) →
    (limiterRun 5 10 b ts).1 = List.replicate ts.length true
    ∧ (limiterRun 5 10 b ts).2.last = ts.getLastD b.last
    ∧ (limiterRun 5 10 b ts).2.tokens
        = b.tokens - ts.length + 5 * (ts.getLastD b.last - b.last) := by
  intro ts
  induction ts with
  | nil =>
    intro b _ _ _
    refine ⟨rfl, rfl, by simp [limiterRun]⟩
  | cons t ts ih =>
    intro b hchain hcap hen
    obtain ⟨hbt, hchain2⟩ := List.chain'_cons.mp hchain
    simp only [List.length_cons] at hen
    push_cast at hen
    have hcred : 0 ≤ 5 * (t - b.last) :=
      mul_nonneg (by norm_num) (by linarith)
    have hlen0 : (0 : ℚ) ≤ ts.length := by positivity
    have h1 : 1 ≤ b.tokens + 5 * (t - b.last) := by linarith
    have h10 : b.tokens + 5 * (t - b.last) ≤ 10 :=
      hcap t (List.mem_cons.mpr (Or.inl rfl))
    have hstep := limiterAllow_admit_eq t (b.tokens + 5 * (t - b.last) - 1) b
      hbt h1 h10 rfl
    have hrun : limiterRun 5 10 b (t :: ts)
        = ((limiterAllow 5 10 t b).1
            :: (limiterRun 5 10 (limiterAllow 5 10 t b).2 ts).1,
           (limiterRun 5 10 (limiterAllow 5 10 t b).2 ts).2) := by
      simp [limiterRun]
    have hb1 : (limiterAllow 5 10 t b).2
        = (⟨b.tokens + 5 * (t - b.last) - 1, t⟩ : Bucket) := by rw [hstep]
    have ihres := ih ⟨b.tokens + 5 * (t - b.last) - 1, t⟩ hchain2 ?_ ?_
    · obtain ⟨ih1, ih2, ih3⟩ := ihres
      refine ⟨?_, ?_, ?_⟩
      · rw [hrun, hstep]
        simp only [List.length_cons, List.replicate_succ]
        rw [← hb1]
        simp only [hstep]
        rw [ih1]
      · rw [hrun]
        simp only [hb1]
        rw [ih2, List.getLastD_cons]
      · rw [hrun]
        simp only [hb1]
        rw [ih3, List.getLastD_cons]
        simp only [List.length_cons]
        push_cast
        ring
    · intro s hs
      have hscap := hcap s (List.mem_cons.mpr (Or.inr hs))
      simp only
      linarith
    · simp only
      linarith

/-- Inequality-only run: as long as the bucket holds at least as many
tokens as there are (chronologically ordered) requests, all of them are
admitted. -/
theorem limiterRun_at_least : ∀ (ts : List ℚ) (b : Bucket),
    List.Chain' (· ≤ ·) (b.last :: ts) →
    b.tokens ≤ 10 →
    ((ts.length : ℚ) ≤ b.tokens) →
    (limiterRun 5 10 b ts).1 = List.replicate ts.length true := by
  intro ts
  induction ts with
  | nil => intro b _ _ _; rfl
  | cons t ts ih =>
    intro b hchain hb10 hen
    obtain ⟨hbt, hchain2⟩ := List.chain'_cons.mp hchain
    simp only [List.length_cons] at hen
    push_cast at hen
    have hlen0 : (0 : ℚ) ≤ ts.length := by positivity
    have hmax0 : 0 ≤ 5 * max 0 (t - b.last) :=
      mul_nonneg (by norm_num) (le_max_left 0 (t - b.last))
    have h1 : 1 ≤ min 10 (b.tokens + 5 * max 0 (t - b.last)) :=
      le_min (by norm_num) (by linarith)
    have hlow : b.tokens ≤ min 10 (b.tokens + 5 * max 0 (t - b.last)) :=
      le_min hb10 (by linarith)
    have hstep := limiterAllow_admit_capped t b h1
    have hrun : limiterRun 5 10 b (t :: ts)
        = ((limiterAllow 5 10 t b).1
            :: (limiterRun 5 10 (limiterAllow 5 10 t b).2 ts).1,
           (limiterRun 5 10 (limiterAllow 5 10 t b).2 ts).2) := by
      simp [limiterRun]
    have hb1 : (limiterAllow 5 10 t b).2
        = (⟨min 10 (b.tokens + 5 * max 0 (t - b.last)) - 1, t⟩ : Bucket) := by
      rw [hstep]
    have hmin10 : min 10 (b.tokens + 5 * max 0 (t - b.last)) ≤ 10 :=
      min_le_left _ _
    have ihres := ih ⟨min 10 (b.tokens + 5 * max 0 (t - b.last)) - 1, t⟩
      hchain2 (by simp only; linarith) (by simp only; linarith)
    rw [hrun, hstep]
    simp only [List.length_cons, List.replicate_succ]
    rw [← hb1]
    simp only [hstep]
    rw [ihres]

/-- C7: for the token bucket with R = 5 tokens/sec and burst B = 10
(`NewMemoryRateLimiter(5, 10)`), a fresh client whose first 10 requests all
fall within one millisecond is fully admitted, the 11th request within that
same millisecond is rejected, and 5 further requests issued from one full
second after the burst started are all admitted. -/
theorem token_bucket_burst
    (t1 t2 t3 t4 t5 t6 t7 t8 t9 t10 t11 u1 u2 u3 u4 u5 : ℚ)
    (h1 : t1 ≤ t2) (h2 : t2 ≤ t3) (h3 : t3 ≤ t4) (h4 : t4 ≤ t5)
    (h5 : t5 ≤ t6) (h6 : t6 ≤ t7) (h7 : t7 ≤ t8) (h8 : t8 ≤ t9)
    (h9 : t9 ≤ t10) (h10 : t10 ≤ t11) (hms : t11 < t1 + 1 / 1000)
    (hu1 : t1 + 1 ≤ u1) (hu2 : u1 ≤ u2) (hu3 : u2 ≤ u3) (hu4 : u3 ≤ u4)
    (hu5 : u4 ≤ u5) :
    (limiterRun 5 10 (newVisitorBucket 10 t1)
        [t1, t2, t3, t4, t5, t6, t7, t8, t9, t10, t11]).1
      = [true, true, true, true, true, true, true, true, true, true, false]
    ∧ (limiterRun 5 10
        (limiterRun 5 10 (newVisitorBucket 10 t1)
          [t1, t2, t3, t4, t5, t6, t7, t8, t9, t10, t11]).2
        [u1, u2, u3, u4, u5]).1
      = [true, true, true, true, true] := by
  have hsplit : ([t1, t2, t3, t4, t5, t6, t7, t8, t9, t10, t11] : List ℚ)
      = [t1] ++ ([t2, t3, t4, t5, t6, t7, t8, t9, t10] ++ [t11]) := rfl
  have e1 : limiterAllow 5 10 t1 (newVisitorBucket 10 t1) = (true, ⟨9, t1⟩) := by
    apply limiterAllow_admit_eq t1 9 (newVisitorBucket 10 t1) le_rfl
    · show (1 : ℚ) ≤ 10 + 5 * (t1 - t1)
      ring_nf
      norm_num
    · show (10 : ℚ) + 5 * (t1 - t1) ≤ 10
      ring_nf
      norm_num
    · show (10 : ℚ) + 5 * (t1 - t1) - 1 = 9
      ring
  have s1 : limiterRun 5 10 (newVisitorBucket 10 t1) [t1] = ([true], ⟨9, t1⟩) := by
    rw [limiterRun_singleton, e1]
  have hmid := limiterRun_exact [t2, t3, t4, t5, t6, t7, t8, t9, t10]
    (⟨9, t1⟩ : Bucket) ?_ ?_ ?_
  · obtain ⟨hm1, hm2, hm3⟩ := hmid
    have hlastD : ([t2, t3, t4, t5, t6, t7, t8, t9, t10].getLastD
        (Bucket.mk 9 t1).last) = t10 := by
      simp only [List.getLastD_cons, List.getLastD_nil]
    rw [hlastD] at hm2 hm3
    have hb2tok : (limiterRun 5 10 (⟨9, t1⟩ : Bucket)
        [t2, t3, t4, t5, t6, t7, t8, t9, t10]).2.tokens = 5 * (t10 - t1) := by
      rw [hm3]
      norm_num
    have e11 : limiterAllow 5 10 t11
        (limiterRun 5 10 (⟨9, t1⟩ : Bucket)
          [t2, t3, t4, t5, t6, t7, t8, t9, t10]).2
        = (false, (limiterRun 5 10 (⟨9, t1⟩ : Bucket)
            [t2, t3, t4, t5, t6, t7, t8, t9, t10]).2) := by
      apply limiterAllow_reject
      rw [hb2tok, hm2]
      have hmax : max 0 (t11 - t10) = t11 - t10 := max_eq_right (by linarith)
      rw [hmax]
      linarith
    have s3 : limiterRun 5 10
        (limiterRun 5 10 (⟨9, t1⟩ : Bucket)
          [t2, t3, t4, t5, t6, t7, t8, t9, t10]).2 [t11]
        = ([false], (limiterRun 5 10 (⟨9, t1⟩ : Bucket)
            [t2, t3, t4, t5, t6, t7, t8, t9, t10]).2) := by
      rw [limiterRun_singleton, e11]
    have hph1 : limiterRun 5 10 (newVisitorBucket 10 t1)
        [t1, t2, t3, t4, t5, t6, t7, t8, t9, t10, t11]
        = ([true] ++ (List.replicate 9 true ++ [false]),
           (limiterRun 5 10 (⟨9, t1⟩ : Bucket)
             [t2, t3, t4, t5, t6, t7, t8, t9, t10]).2) := by
      rw [hsplit, limiterRun_append, s1]
      simp only
      rw [limiterRun_append, hm1, s3,
        show ([t2, t3, t4, t5, t6, t7, t8, t9, t10] : List ℚ).length = 9 from rfl]
    constructor
    · rw [hph1]
      rfl
    · rw [hph1]
      simp only
      have husplit : ([u1, u2, u3, u4, u5] : List ℚ)
          = [u1] ++ [u2, u3, u4, u5] := rfl
      have hcap1 : (1 : ℚ) ≤ min 10
          ((limiterRun 5 10 (⟨9, t1⟩ : Bucket)
            [t2, t3, t4, t5, t6, t7, t8, t9, t10]).2.tokens
           + 5 * max 0 (u1 - (limiterRun 5 10 (⟨9, t1⟩ : Bucket)
            [t2, t3, t4, t5, t6, t7, t8, t9, t10]).2.last)) := by
        rw [hb2tok, hm2]
        have hmax : max 0 (u1 - t10) = u1 - t10 := max_eq_right (by linarith)
        rw [hmax]
        refine le_min (by norm_num) (by linarith)
      have eu1 := limiterAllow_admit_capped u1
        (limiterRun 5 10 (⟨9, t1⟩ : Bucket)
          [t2, t3, t4, t5, t6, t7, t8, t9, t10]).2 hcap1
      have su1 : limiterRun 5 10
          (limiterRun 5 10 (⟨9, t1⟩ : Bucket)
            [t2, t3, t4, t5, t6, t7, t8, t9, t10]).2 [u1]
          = ([true], ⟨min 10
              ((limiterRun 5 10 (⟨9, t1⟩ : Bucket)
                [t2, t3, t4, t5, t6, t7, t8, t9, t10]).2.tokens
               + 5 * max 0 (u1 - (limiterRun 5 10 (⟨9, t1⟩ : Bucket)
                [t2, t3, t4, t5, t6, t7, t8, t9, t10]).2.last)) - 1, u1⟩) := by
        rw [limiterRun_singleton, eu1]
      have htokval : min 10
          ((limiterRun 5 10 (⟨9, t1⟩ : Bucket)
            [t2, t3, t4, t5, t6, t7, t8, t9, t10]).2.tokens
           + 5 * max 0 (u1 - (limiterRun 5 10 (⟨9, t1⟩ : Bucket)
            [t2, t3, t4, t5, t6, t7, t8, t9, t10]).2.last))
          = min 10 (5 * (u1 - t1)) := by
        rw [hb2tok, hm2]
        have hmax : max 0 (u1 - t10) = u1 - t10 := max_eq_right (by linarith)
        rw [hmax]
        ring_nf
      have hrest := limiterRun_at_least [u2, u3, u4, u5]
        (⟨min 10 ((limiterRun 5 10 (⟨9, t1⟩ : Bucket)
            [t2, t3, t4, t5, t6, t7, t8, t9, t10]).2.tokens
          + 5 * max 0 (u1 - (limiterRun 5 10 (⟨9, t1⟩ : Bucket)
            [t2, t3, t4, t5, t6, t7, t8, t9, t10]).2.last)) - 1, u1⟩ : Bucket)
        ?_ ?_ ?_
      · rw [husplit, limiterRun_append, su1]
        simp only
        rw [hrest]
        rfl
      · show List.Chain' (· ≤ ·) (u1 :: [u2, u3, u4, u5])
        simp only [List.chain'_cons, List.chain'_singleton, and_true]
        exact ⟨hu2, hu3, hu4, hu5⟩
      · show min 10 _ - 1 ≤ 10
        have := min_le_left (10 : ℚ)
          ((limiterRun 5 10 (⟨9, t1⟩ : Bucket)
            [t2, t3, t4, t5, t6, t7, t8, t9, t10]).2.tokens
           + 5 * max 0 (u1 - (limiterRun 5 10 (⟨9, t1⟩ : Bucket)
            [t2, t3, t4, t5, t6, t7, t8, t9, t10]).2.last))
        linarith
      · show (([u2, u3, u4, u5] : List ℚ).length : ℚ) ≤ min 10 _ - 1
        rw [htokval]
        have hge : (5 : ℚ) ≤ min 10 (5 * (u1 - t1)) :=
          le_min (by norm_num) (by linarith)
        simp only [List.length_cons, List.length_nil]
        push_cast
        linarith
  · show List.Chain' (· ≤ ·) ((Bucket.mk 9 t1).last
      :: [t2, t3, t4, t5, t6, t7, t8, t9, t10])
    simp only [List.chain'_cons, List.chain'_singleton, and_true]
    exact ⟨h1, h2, h3, h4, h5, h6, h7, h8, h9⟩
  · intro s hs
    simp only [List.mem_cons, List.not_mem_nil, or_false] at hs
    show (9 : ℚ) + 5 * (s - t1) ≤ 10
    rcases hs with rfl | rfl | rfl | rfl | rfl | rfl | rfl | rfl | rfl <;> linarith
  · show (([t2, t3, t4, t5, t6, t7, t8, t9, t10] : List ℚ).length : ℚ) ≤ 9
    simp only [List.length_cons, List.length_nil]
    push_cast
    linarith

/-- Witness for `token_bucket_burst`: the whole burst at second 0, the
follow-up requests at second 1. -/
theorem token_bucket_burst_witness :
    (limiterRun 5 10 (newVisitorBucket 10 0)
        [0, 0, 0, 0, 0, 0, 0, 0, 0, 0, 0]).1
      = [true, true, true, true, true, true, true, true, true, true, false]
    ∧ (limiterRun 5 10
        (limiterRun 5 10 (newVisitorBucket 10 0)
          [0, 0, 0, 0, 0, 0, 0, 0, 0, 0, 0]).2
        [1, 1, 1, 1, 1]).1
      = [true, true, true, true, true] :=
  token_bucket_burst 0 0 0 0 0 0 0 0 0 0 0 1 1 1 1 1
    le_rfl le_rfl le_rfl le_rfl le_rfl le_rfl le_rfl le_rfl le_rfl le_rfl
    (by norm_num) (by norm_num) le_rfl le_rfl le_rfl le_rfl

/-! ## Claim C8 -/

theorem requestID_infix_writeJSONErrorBody (m r : String) :
    r.data <:+: (writeJSONErrorBody m r).data := by
  refine ⟨("\x7b\"success\":false,\"error\":\"" ++ m ++
    "\",\"request_id\":\"").data, "\"\x7d".data, ?_⟩
  simp [writeJSONErrorBody, String.data_append, List.append_assoc]

/-- C8: if the downstream handler finishes before the deadline its response
passes through unchanged and the guard returns at that moment; if the
deadline elapses first, the guard writes one 408 request-timeout JSON body
containing the correlation id and returns at the deadline, while the
downstream work is not stopped and its write still lands on the same
response afterwards. -/
theorem timeout_guard (timeout : ℚ) (requestID : String) (finish : ℚ)
    (resp : Response) :
    (finish < timeout →
      timeoutMiddleware timeout requestID finish resp = ⟨[resp], finish⟩)
    ∧ (timeout < finish →
      (timeoutMiddleware timeout requestID finish resp).writes
        = [⟨408, writeJSONErrorBody "Request timeout" requestID⟩, resp]
      ∧ (timeoutMiddleware timeout requestID finish resp).guardReturnTime
        = timeout
      ∧ requestID.data <:+:
          (writeJSONErrorBody "Request timeout" requestID).data) := by
  constructor
  · intro h
    simp [timeoutMiddleware, le_of_lt h]
  · intro h
    have hn : ¬ finish ≤ timeout := not_le.mpr h
    refine ⟨?_, ?_, requestID_infix_writeJSONErrorBody _ _⟩
    · simp [timeoutMiddleware, hn]
    · simp [timeoutMiddleware, hn]

/-- Witness for `timeout_guard`: once with the handler finishing first,
once with the deadline elapsing first. -/
theorem timeout_guard_witness :
    timeoutMiddleware 2 "rid" 1 ⟨200, "ok"⟩ = ⟨[⟨200, "ok"⟩], 1⟩
    ∧ (timeoutMiddleware 1 "rid" 2 ⟨200, "ok"⟩).writes
      = [⟨408, writeJSONErrorBody "Request timeout" "rid"⟩, ⟨200, "ok"⟩] := by
  constructor
  · exact (timeout_guard 2 "rid" 1 ⟨200, "ok"⟩).1 (by decide)
  · exact ((timeout_guard 1 "rid" 2 ⟨200, "ok"⟩).2 (by decide)).1

/-! ## Claim C9 -/

theorem zAdd_keys_of_mem (m s : Int) (l : List (Int × Int))
    (hp : (l.any fun x => x.1 = m) = true) :
    (zAdd m s l).map Prod.fst = l.map Prod.fst := by
  unfold zAdd
  rw [if_pos hp, List.map_map]
  apply List.map_congr_left
  intro e he
  by_cases hm : e.1 = m
  · simp [hm]
  · simp [hm]

theorem zAdd_keys_of_not_mem (m s : Int) (l : List (Int × Int))
    (hp : ¬ (l.any fun x => x.1 = m) = true) :
    (zAdd m s l).map Prod.fst = m :: l.map Prod.fst := by
  unfold zAdd
  rw [if_neg hp]
  rfl

theorem zAdd_keys_nodup (m s : Int) (l : List (Int × Int))
    (h : (l.map Prod.fst).Nodup) : ((zAdd m s l).map Prod.fst).Nodup := by
  by_cases hp : (l.any fun x => x.1 = m) = true
  · rw [zAdd_keys_of_mem m s l hp]
    exact h
  · rw [zAdd_keys_of_not_mem m s l hp]
    refine List.nodup_cons.mpr ⟨?_, h⟩
    intro hmem
    rcases List.mem_map.mp hmem with ⟨e, he, hfst⟩
    exact hp (List.any_eq_true.mpr ⟨e, he, decide_eq_true hfst⟩)

/-- Invariant of the per-client window collection maintained by
`RedisRateLimiter.Allow`: member keys stay pairwise distinct, every entry
satisfies `member = score`, and every member comes from a request second
(`S` abstracts the set of admissible seconds). -/
theorem redisRun_inv (rate : Int) (S : Int → Prop) :
    ∀ (ts : List Int) (l : List (Int × Int)) (ttl : Int),
    (l.map Prod.fst).Nodup → (∀ e ∈ l, e.1 = e.2 ∧ S e.1) →
    (∀ x ∈ ts, S x) →
    ((redisRun rate ⟨l, ttl⟩ ts).2.entries.map Prod.fst).Nodup
    ∧ (∀ e ∈ (redisRun rate ⟨l, ttl⟩ ts).2.entries, e.1 = e.2 ∧ S e.1) := by
  intro ts
  induction ts with
  | nil =>
    intro l ttl h1 h2 _
    exact ⟨h1, h2⟩
  | cons t ts ih =>
    intro l ttl h1 h2 h3
    have hrun : (redisRun rate ⟨l, ttl⟩ (t :: ts)).2
        = (redisRun rate ⟨zAdd t t (zRemRangeByScore 0 (t - 60) l), 120⟩ ts).2 := by
      simp [redisRun, redisAllow]
    rw [hrun]
    have hfil : ((zRemRangeByScore 0 (t - 60) l).map Prod.fst).Nodup :=
      h1.sublist ((List.filter_sublist _).map Prod.fst)
    refine ih (zAdd t t (zRemRangeByScore 0 (t - 60) l)) 120
      (zAdd_keys_nodup t t _ hfil) ?_ (fun x hx => h3 x (List.mem_cons.mpr (Or.inr hx)))
    intro e he
    rcases (mem_zAdd t t _ e).mp he with rfl | ⟨he2, _⟩
    · exact ⟨rfl, h3 t (List.mem_cons.mpr (Or.inl rfl))⟩
    · have := (mem_zRemRangeByScore 0 (t - 60) l e).mp he2
      exact h2 e this.1

/-- C9: every admission check inserts the entry `(now, now)` — member equal
to the unix second — so the per-client collection holds at most one entry
per distinct whole second (pairwise-distinct members drawn from the traffic
seconds), and the post-removal count observed by a request at second `t`
after any traffic history `ts` is bounded by the number of distinct seconds
with traffic in the window `(t-60, t]`, not by the number of requests. -/
theorem redis_window_bounded_by_distinct_seconds (rate : Int) (ts : List Int)
    (t : Int) (hnn : ∀ x ∈ ts, 0 ≤ x) (hle : ∀ x ∈ ts, x ≤ t) :
    (((redisRun rate ⟨[], 0⟩ ts).2.entries.map Prod.fst).Nodup
      ∧ ∀ e ∈ (redisRun rate ⟨[], 0⟩ ts).2.entries, e.1 = e.2 ∧ e.1 ∈ ts)
    ∧ observedCount t (redisRun rate ⟨[], 0⟩ ts).2
        ≤ (ts.toFinset.filter fun x => t - 60 < x ∧ x ≤ t).card := by
  have hinv := redisRun_inv rate (fun x => x ∈ ts) ts [] 0 (by simp) (by simp)
    (fun x hx => hx)
  refine ⟨hinv, ?_⟩
  obtain ⟨hnd, hmem⟩ := hinv
  have hndf : (((zRemRangeByScore 0 (t - 60)
      (redisRun rate ⟨[], 0⟩ ts).2.entries)).map Prod.fst).Nodup :=
    hnd.sublist ((List.filter_sublist _).map Prod.fst)
  have hsub : ((zRemRangeByScore 0 (t - 60)
      (redisRun rate ⟨[], 0⟩ ts).2.entries).map Prod.fst).toFinset
      ⊆ ts.toFinset.filter fun x => t - 60 < x ∧ x ≤ t := by
    intro k hk
    rcases List.mem_map.mp (List.mem_toFinset.mp hk) with ⟨e, hef, rfl⟩
    have h1 := (mem_zRemRangeByScore 0 (t - 60) _ e).mp hef
    have h2 := hmem e h1.1
    have h3 : 0 ≤ e.1 := hnn e.1 h2.2
    have h4 : e.1 ≤ t := hle e.1 h2.2
    refine Finset.mem_filter.mpr ⟨List.mem_toFinset.mpr h2.2, ?_, h4⟩
    have h5 := h1.2
    rw [← h2.1] at h5
    omega
  have hcard : ((zRemRangeByScore 0 (t - 60)
      (redisRun rate ⟨[], 0⟩ ts).2.entries).map Prod.fst).toFinset.card
      ≤ (ts.toFinset.filter fun x => t - 60 < x ∧ x ≤ t).card :=
    Finset.card_le_card hsub
  have hlen : ((zRemRangeByScore 0 (t - 60)
      (redisRun rate ⟨[], 0⟩ ts).2.entries).map Prod.fst).toFinset.card
      = observedCount t (redisRun rate ⟨[], 0⟩ ts).2 := by
    rw [List.toFinset_card_of_nodup hndf, List.length_map]
    rfl
  omega

/-- Witness for `redis_window_bounded_by_distinct_seconds`: three requests
over two distinct seconds. -/
theorem redis_window_bounded_by_distinct_seconds_witness :
    (∀ x ∈ ([100, 100, 160] : List Int), 0 ≤ x)
    ∧ (∀ x ∈ ([100, 100, 160] : List Int), x ≤ 160)
    ∧ ((((redisRun 100 ⟨[], 0⟩ [100, 100, 160]).2.entries.map Prod.fst).Nodup
        ∧ ∀ e ∈ (redisRun 100 ⟨[], 0⟩ [100, 100, 160]).2.entries,
            e.1 = e.2 ∧ e.1 ∈ ([100, 100, 160] : List Int))
      ∧ observedCount 160 (redisRun 100 ⟨[], 0⟩ [100, 100, 160]).2
          ≤ (([100, 100, 160] : List Int).toFinset.filter
              fun x => 160 - 60 < x ∧ x ≤ 160).card) := by
  refine ⟨by decide, by decide, ?_⟩
  exact redis_window_bounded_by_distinct_seconds 100 [100, 100, 160] 160
    (by decide) (by decide)

/-! ## Claim C10 -/

theorem countChar_writeJSONErrorBody (c : Char) (m r : String) :
    countChar c (writeJSONErrorBody m r).data =
      countChar c ("\x7b\"success\":false,\"error\":\"" : String).data
      + countChar c m.data
      + countChar c ("\",\"request_id\":\"" : String).data
      + countChar c r.data
      + countChar c ("\"\x7d" : String).data := by
  simp only [writeJSONErrorBody, String.data_append, countChar_append]

theorem noRawQuote_no_backslash (l : List Char) :
    countChar '\\' l = 0 → noRawQuote l = true → countChar '"' l = 0 := by
  induction l with
  | nil => intro _ _; rfl
  | cons a rest ih =>
    intro hb hq
    have ha : a ≠ '\\' := by
      intro h
      subst h
      simp [countChar] at hb
    have hb2 : countChar '\\' rest = 0 := by
      simp only [countChar, if_neg ha] at hb
      omega
    by_cases ha2 : a = '"'
    · exfalso
      rw [noRawQuote.eq_def] at hq
      simp only [] at hq
      rw [if_neg ha, if_pos ha2] at hq
      exact Bool.false_ne_true hq
    · rw [noRawQuote.eq_def] at hq
      simp only [] at hq
      rw [if_neg ha, if_neg ha2] at hq
      simp only [countChar, if_neg ha2]
      rw [ih hb2 hq]

theorem writeJSONErrorBody_quote_not_enveloped :
    ¬ IsEnvelopeShaped (writeJSONErrorBody "Internal server error" "x\"y") := by
  rintro ⟨e, r, he, hr, heq⟩
  have hq := congrArg (fun s => countChar '"' s.data) heq
  have hb := congrArg (fun s => countChar '\\' s.data) heq
  simp only at hq hb
  rw [countChar_writeJSONErrorBody, countChar_writeJSONErrorBody] at hq hb
  have c1 : countChar '"' ("Internal server error" : String).data = 0 := by decide
  have c2 : countChar '"' ("x\"y" : String).data = 1 := by decide
  have c3 : countChar '\\' ("Internal server error" : String).data = 0 := by decide
  have c4 : countChar '\\' ("x\"y" : String).data = 0 := by decide
  have c5 : countChar '\\'
      ("\x7b\"success\":false,\"error\":\"" : String).data = 0 := by decide
  have c6 : countChar '\\' ("\",\"request_id\":\"" : String).data = 0 := by decide
  have c7 : countChar '\\' ("\"\x7d" : String).data = 0 := by decide
  have hbe : countChar '\\' e.data = 0 := by omega
  have hbr : countChar '\\' r.data = 0 := by omega
  have hqe := noRawQuote_no_backslash e.data hbe he
  have hqr := noRawQuote_no_backslash r.data hbr hr
  omega

/-- C10: every rejection of the pipeline — the JWT middleware's 401s, the
rate limiter's 429, the timeout guard's 408, and the recovery middleware's
500 — renders its body by splicing the message and the correlation id
verbatim and unescaped into the fixed template
`{"success":false,"error":"<message>","request_id":"<id>"}`; consequently,
for a client-supplied correlation id containing a double quote (here
`x"y`), the resulting body is not a JSON object of the envelope shape. -/
theorem json_error_template :
    (∀ message requestID : String,
      writeJSONErrorBody message requestID =
        "\x7b\"success\":false,\"error\":\"" ++ message ++
          "\",\"request_id\":\"" ++ requestID ++ "\"\x7d")
    ∧ (∀ requestID : String,
      recoveryBody requestID = writeJSONErrorBody "Internal server error" requestID)
    ∧ (∀ (secret : String) (now : Int) (requestID : String)
        (next : String → Response),
      jwtMiddleware secret now requestID none next
        = ⟨401, writeJSONErrorBody "Auth cookie required" requestID⟩)
    ∧ (∀ (rate : Int) (redisOK : Bool) (now : Int) (requestID : String)
        (s : RedisKeyState) (next : Response),
      (rateLimitMiddleware rate redisOK now requestID s next).1 = next
      ∨ (rateLimitMiddleware rate redisOK now requestID s next).1
        = ⟨429, writeJSONErrorBody "Rate limit exceeded" requestID⟩)
    ∧ (∀ (timeout : ℚ) (requestID : String) (finish : ℚ) (resp : Response),
      (timeoutMiddleware timeout requestID finish resp).writes = [resp]
      ∨ (timeoutMiddleware timeout requestID finish resp).writes
        = [⟨408, writeJSONErrorBody "Request timeout" requestID⟩, resp])
    ∧ ¬ IsEnvelopeShaped (writeJSONErrorBody "Internal server error" "x\"y") := by
  refine ⟨fun m r => rfl, fun r => ?_, fun secret now rid next => rfl, ?_, ?_,
    writeJSONErrorBody_quote_not_enveloped⟩
  · simp [recoveryBody, writeJSONErrorBody]
  · intro rate redisOK now rid s next
    unfold rateLimitMiddleware
    by_cases h : (redisAllow rate redisOK now s).allowed = true
    · left
      simp [h]
    · right
      simp [h]
  · intro timeout rid finish resp
    unfold timeoutMiddleware
    by_cases h : finish ≤ timeout
    · left
      simp [h]
    · right
      simp [h]

end Goboiler
